import Mathlib

/-!
Verification of the publish/upload flow of the component-sharing web app
(apps/web/components/ComponentForm/ComponentForm.tsx and
apps/web/utils/dbQueries.ts), as a shallow embedding in Lean.

External collaborators (the Supabase client, the parsers module, the
storage helpers) are modelled abstractly: their results are inputs
(environment records) of the embedded functions, so every theorem is
quantified over all behaviours of those collaborators.  The control flow,
guards, string building and list processing of the repository's own code
are translated directly from the TypeScript source.
-/

namespace TwentyFirst

/-- A JavaScript thrown value: either an `Error` carrying a message, or any
other thrown value (for which `error instanceof Error` is false). -/
inductive JsError where
  | jsError (msg : String)
  | jsOther
deriving DecidableEq

/-- Source expression `tag.name.charAt(0).toUpperCase() + tag.name.slice(1)` from
`addTagsToComponent` (dbQueries.ts line 237): capitalize the first
character.  `charAt(0)` of the empty string is `""`. -/
def capitalize (s : String) : String :=
  match s.data with
  | [] => ""
  | c :: rest => String.mk (c.toUpper :: rest)

/-! ### Model of `addTagsToComponent` (dbQueries.ts lines 226-275)

The Supabase tables touched by this function are modelled as an explicit
state `TagDb` (rows of `tags`, rows of `component_tags`, and a fresh-id
counter).  Whether an insert fails, and whether `.single()` after an
insert hands the created row back, is decided by an environment `TagEnv`
indexed by the position of the tag in the input list.  Every backend call
the loop issues is recorded, in order, in a trace of `DbOp`s. -/

/-- A row of the `tags` table. -/
structure TagRow where
  id : Nat
  name : String
  slug : String
deriving DecidableEq

/-- A tag as passed to `addTagsToComponent`: `id` is optional (tags freshly
created in the form have none).  JavaScript truthiness makes `tag.id`
falsy both when absent and when it is `0`. -/
structure FTag where
  id : Option Nat
  name : String
  slug : String
deriving DecidableEq

/-- Guard `if (tag.id)`: truthiness of the optional numeric id. -/
def truthyId (o : Option Nat) : Bool :=
  match o with
  | none => false
  | some i => i != 0

/-- State of the two tables used by `addTagsToComponent`. -/
structure TagDb where
  tags : List TagRow
  links : List (Nat × Nat)
  nextId : Nat
deriving DecidableEq

/-- Outcome of `supabase.from("tags").insert(...).single()` as seen by the
caller: the insert errors (`insertError` set, no row created), or the row
is created but `.single()` returns no usable object (`newTag` falsy or
without an `id`), or the row is created and returned. -/
inductive InsertOutcome where
  | fail
  | createdNoData
  | created
deriving DecidableEq

/-- Failure injection for the backend calls of `addTagsToComponent`,
indexed by the position of the tag in the input list. -/
structure TagEnv where
  insertOutcome : Nat → InsertOutcome
  linkFails : Nat → Bool

/-- A backend operation issued by dbQueries.ts.  `deleteLike` is the only
delete the module ever issues (in `unlikeComponent`); it is included so
that "no compensating writes" is a statement about a type that can
express deletes. -/
inductive DbOp where
  | selectTag (slug : String)
  | insertTag (name slug : String)
  | insertLink (componentId tagId : Nat)
  | deleteLike (userId : String) (componentId : Nat)
deriving DecidableEq

/-- Semantics of `.single()` on the rows matching a select: data only when
exactly one row matches. -/
def singleRow {α : Type} (rows : List α) : Option α :=
  match rows with
  | [r] => some r
  | _ => none

/-- The final `component_tags` insert of one loop iteration
(dbQueries.ts lines 267-273): the op is issued; on `linkError` the code
only logs, so a failing link changes nothing. -/
def linkStep (env : TagEnv) (i : Nat) (cid : Nat) (tagId : Nat)
    (db : TagDb) (ops : List DbOp) : TagDb × List DbOp :=
  if env.linkFails i then (db, ops ++ [DbOp.insertLink cid tagId])
  else ({ db with links := db.links ++ [(cid, tagId)] },
        ops ++ [DbOp.insertLink cid tagId])

/-- One iteration of the `for (const tag of tags)` loop of
`addTagsToComponent` (dbQueries.ts lines 231-274).  `genSlug` is the
external `generateSlug` helper, taken as a parameter. -/
def processTag (genSlug : String → String) (env : TagEnv) (i : Nat)
    (cid : Nat) (db : TagDb) (tag : FTag) : TagDb × List DbOp :=
  if truthyId tag.id then
    linkStep env i cid (tag.id.getD 0) db []
  else
    let capitalizedName := capitalize tag.name
    let slug := genSlug tag.name
    let ops := [DbOp.selectTag slug]
    match singleRow (db.tags.filter (fun r => r.slug == slug)) with
    | some existingTag => linkStep env i cid existingTag.id db ops
    | none =>
      let ops := ops ++ [DbOp.insertTag capitalizedName slug]
      match env.insertOutcome i with
      | InsertOutcome.fail => (db, ops)
      | InsertOutcome.createdNoData =>
          ({ db with tags := db.tags ++ [⟨db.nextId, capitalizedName, slug⟩],
                     nextId := db.nextId + 1 }, ops)
      | InsertOutcome.created =>
          let db1 : TagDb :=
            { db with tags := db.tags ++ [⟨db.nextId, capitalizedName, slug⟩],
                      nextId := db.nextId + 1 }
          linkStep env i cid db.nextId db1 ops

/-- Model of `addTagsToComponent` (dbQueries.ts lines 226-275): fold the loop body
over the tag list, threading the table state and concatenating the traces. -/
def addTagsToComponent (genSlug : String → String) (env : TagEnv)
    (cid : Nat) : Nat → TagDb → List FTag → TagDb × List DbOp
  | _, db, [] => (db, [])
  | i, db, t :: ts =>
    let r1 := processTag genSlug env i cid db t
    let r2 := addTagsToComponent genSlug env cid (i + 1) r1.1 ts
    (r2.1, r1.2 ++ r2.2)

/-- The react-query options object a `useQuery` call is configured with
(the fields this repository sets). -/
structure QueryConfig where
  queryKeyName : String
  queryKeyArg : Option String
  refetchOnWindowFocus : Bool
  retryOnError : Bool
deriving DecidableEq

/-- Model of `useComponents` (dbQueries.ts lines 124-131): the query configuration
it passes to `useQuery`, including `retry: false`. -/
def useComponents (tagSlug : Option String) : QueryConfig :=
  { queryKeyName := "components"
  , queryKeyArg := tagSlug
  , refetchOnWindowFocus := false
  , retryOnError := false }

/-- The trace of one loop iteration has one of four shapes: link only
(tag with truthy id), select then link (existing tag reused), select then
failed or data-less insert, or select, insert, link. -/
theorem processTag_ops_shape (g : String → String) (env : TagEnv) (i cid : Nat)
    (db : TagDb) (t : FTag) :
    (∃ tid, (processTag g env i cid db t).2 = [DbOp.insertLink cid tid]) ∨
    (∃ tid, (processTag g env i cid db t).2 =
        [DbOp.selectTag (g t.name), DbOp.insertLink cid tid]) ∨
    (processTag g env i cid db t).2 =
        [DbOp.selectTag (g t.name), DbOp.insertTag (capitalize t.name) (g t.name)] ∨
    (processTag g env i cid db t).2 =
        [DbOp.selectTag (g t.name), DbOp.insertTag (capitalize t.name) (g t.name),
         DbOp.insertLink cid db.nextId] := by
  unfold processTag linkStep
  by_cases h1 : truthyId t.id <;> by_cases h2 : env.linkFails i <;>
    rcases h3 : singleRow (db.tags.filter (fun r => r.slug == g t.name)) with _ | r <;>
    rcases h4 : env.insertOutcome i with _ | _ | _ <;>
    simp [h1, h2, h3, h4]

/-- The table state after one loop iteration is the old state with rows
appended: nothing is ever removed or rewritten. -/
theorem processTag_extends (g : String → String) (env : TagEnv) (i cid : Nat)
    (db : TagDb) (t : FTag) :
    ∃ l1 l2, (processTag g env i cid db t).1.tags = db.tags ++ l1 ∧
             (processTag g env i cid db t).1.links = db.links ++ l2 := by
  unfold processTag linkStep
  by_cases h1 : truthyId t.id <;> by_cases h2 : env.linkFails i <;>
    rcases h3 : singleRow (db.tags.filter (fun r => r.slug == g t.name)) with _ | r <;>
    rcases h4 : env.insertOutcome i with _ | _ | _ <;>
    simp [h1, h2, h3, h4]

/-- The whole-table state after `addTagsToComponent` extends the initial
state: the loop only appends rows. -/
theorem addTagsToComponent_extends (g : String → String) (env : TagEnv)
    (cid : Nat) (tags : List FTag) :
    ∀ i db, ∃ l1 l2,
      (addTagsToComponent g env cid i db tags).1.tags = db.tags ++ l1 ∧
      (addTagsToComponent g env cid i db tags).1.links = db.links ++ l2 := by
  induction tags with
  | nil => intro i db; exact ⟨[], [], by simp [addTagsToComponent], by simp [addTagsToComponent]⟩
  | cons t ts ih =>
    intro i db
    obtain ⟨l1, l2, h1, h2⟩ := processTag_extends g env i cid db t
    obtain ⟨m1, m2, h3, h4⟩ := ih (i + 1) (processTag g env i cid db t).1
    refine ⟨l1 ++ m1, l2 ++ m2, ?_, ?_⟩
    · show (addTagsToComponent g env cid (i+1) (processTag g env i cid db t).1 ts).1.tags = _
      rw [h3, h1, List.append_assoc]
    · show (addTagsToComponent g env cid (i+1) (processTag g env i cid db t).1 ts).1.links = _
      rw [h4, h2, List.append_assoc]

/-- No operation in a per-tag trace is a delete. -/
theorem processTag_no_delete (g : String → String) (env : TagEnv) (i cid : Nat)
    (db : TagDb) (t : FTag) :
    ∀ op ∈ (processTag g env i cid db t).2, ∀ u c, op ≠ DbOp.deleteLike u c := by
  intro op hop u c
  rcases processTag_ops_shape g env i cid db t with ⟨tid, h⟩ | ⟨tid, h⟩ | h | h <;>
    rw [h] at hop <;> simp at hop <;>
    first
      | (subst hop; simp)
      | (rcases hop with hop | hop <;> subst hop <;> simp)
      | (rcases hop with hop | hop | hop <;> subst hop <;> simp)

/-- No operation in the whole trace of `addTagsToComponent` is a delete. -/
theorem addTagsToComponent_no_delete (g : String → String) (env : TagEnv)
    (cid : Nat) (tags : List FTag) :
    ∀ i db, ∀ op ∈ (addTagsToComponent g env cid i db tags).2,
      ∀ u c, op ≠ DbOp.deleteLike u c := by
  induction tags with
  | nil => intro i db op hop; simp [addTagsToComponent] at hop
  | cons t ts ih =>
    intro i db op hop
    have hdec : (addTagsToComponent g env cid i db (t :: ts)).2 =
        (processTag g env i cid db t).2 ++
        (addTagsToComponent g env cid (i+1) (processTag g env i cid db t).1 ts).2 := rfl
    rw [hdec] at hop
    rcases List.mem_append.mp hop with h | h
    · exact processTag_no_delete g env i cid db t op h
    · exact ih (i+1) (processTag g env i cid db t).1 op h

/-- Each backend call of a loop iteration appears at most once in its
trace. -/
theorem processTag_ops_nodup (g : String → String) (env : TagEnv) (i cid : Nat)
    (db : TagDb) (t : FTag) :
    (processTag g env i cid db t).2.Nodup := by
  rcases processTag_ops_shape g env i cid db t with ⟨tid, h⟩ | ⟨tid, h⟩ | h | h <;>
    rw [h] <;> simp

/-- In a table whose slugs are pairwise distinct, filtering by the slug of
a member row yields exactly that row. -/
theorem filter_slug_eq_single (rows : List TagRow) (s : String)
    (hnd : (rows.map TagRow.slug).Nodup) (r : TagRow) (hr : r ∈ rows)
    (hs : r.slug = s) :
    rows.filter (fun x => x.slug == s) = [r] := by
  induction rows with
  | nil => cases hr
  | cons a rest ih =>
    simp only [List.map_cons, List.nodup_cons] at hnd
    obtain ⟨ha, hnd⟩ := hnd
    rcases List.mem_cons.mp hr with h | h
    · subst h
      have hrest : rest.filter (fun x => x.slug == s) = [] := by
        rw [List.filter_eq_nil_iff]
        intro x hx
        simp only [beq_iff_eq]
        intro hxs
        exact ha (hxs.trans hs.symm ▸ List.mem_map_of_mem TagRow.slug hx)
      simp [List.filter_cons, hs, hrest]
    · have has : a.slug ≠ s := by
        intro he
        refine ha ?_
        rw [he, ← hs]
        exact List.mem_map_of_mem TagRow.slug h
      rw [List.filter_cons]
      simp only [beq_iff_eq, has, if_neg]
      simpa using ih hnd h

/-- C1: each failing backend call of the submission flow is attempted
exactly once and triggers no compensating writes.  Concretely, for the
tag-association loop `addTagsToComponent`: (a) `useComponents` configures
react-query with `retry: false`; (b) the trace of the loop is the trace of
the first tag followed by the trace of the remaining tags, so a failure on
one tag affects only that tag's segment; (c) within one tag no backend
call is issued twice; (d) no delete is ever issued; (e) the table state
only grows (no write is ever undone); (f) when the tag insert fails, the
handling is exactly: stop that tag after the failed insert (no link
issued, state unchanged) and move on. -/
theorem addTagsToComponent_no_retry_no_compensation (g : String → String)
    (env : TagEnv) (cid i : Nat) (db : TagDb) (tags : List FTag)
    (t : FTag) (ts : List FTag) :
    (∀ tagSlug, (useComponents tagSlug).retryOnError = false) ∧
    ((addTagsToComponent g env cid i db (t :: ts)).2 =
      (processTag g env i cid db t).2 ++
      (addTagsToComponent g env cid (i + 1) (processTag g env i cid db t).1 ts).2) ∧
    (processTag g env i cid db t).2.Nodup ∧
    (∀ op ∈ (addTagsToComponent g env cid i db tags).2,
      ∀ u c, op ≠ DbOp.deleteLike u c) ∧
    (∃ l1 l2, (addTagsToComponent g env cid i db tags).1.tags = db.tags ++ l1 ∧
              (addTagsToComponent g env cid i db tags).1.links = db.links ++ l2) ∧
    (env.insertOutcome i = InsertOutcome.fail → truthyId t.id = false →
      singleRow (db.tags.filter (fun r => r.slug == g t.name)) = none →
      (processTag g env i cid db t).1 = db ∧
      (processTag g env i cid db t).2 =
        [DbOp.selectTag (g t.name), DbOp.insertTag (capitalize t.name) (g t.name)]) := by
  refine ⟨fun _ => rfl, rfl, processTag_ops_nodup g env i cid db t,
    addTagsToComponent_no_delete g env cid tags i db,
    addTagsToComponent_extends g env cid tags i db, ?_⟩
  intro hfail hid hsingle
  unfold processTag
  simp [hid, hsingle, hfail]

/-- Witness for `addTagsToComponent_no_retry_no_compensation` at a
concrete input where the tag insert fails. -/
theorem addTagsToComponent_no_retry_no_compensation_witness :
    (processTag (fun s => s) ⟨fun _ => InsertOutcome.fail, fun _ => false⟩ 0 7
        ⟨[], [], 1⟩ ⟨none, "ui", "ui"⟩).1 = ⟨[], [], 1⟩ ∧
    (processTag (fun s => s) ⟨fun _ => InsertOutcome.fail, fun _ => false⟩ 0 7
        ⟨[], [], 1⟩ ⟨none, "ui", "ui"⟩).2 =
      [DbOp.selectTag "ui", DbOp.insertTag (capitalize "ui") "ui"] := by
  exact (addTagsToComponent_no_retry_no_compensation (fun s => s)
    ⟨fun _ => InsertOutcome.fail, fun _ => false⟩ 7 0 ⟨[], [], 1⟩ []
    ⟨none, "ui", "ui"⟩ []).2.2.2.2.2 rfl (by decide) (by decide)

/-- C9: for a tag passed to `addTagsToComponent` without a (truthy) id:
if a tag row whose slug is `generateSlug(tag.name)` already exists in a
table with pairwise-distinct slugs, no tag insert is issued, the tags
table is unchanged, and the existing row's id is used for the
component-tag link; a tag insert is issued only when no row with that
slug exists. -/
theorem processTag_reuses_existing_tag (g : String → String) (env : TagEnv)
    (i cid : Nat) (db : TagDb) (t : FTag)
    (hid : truthyId t.id = false)
    (hnd : (db.tags.map TagRow.slug).Nodup) :
    (∀ r ∈ db.tags, r.slug = g t.name →
      (∀ n s, DbOp.insertTag n s ∉ (processTag g env i cid db t).2) ∧
      (processTag g env i cid db t).1.tags = db.tags ∧
      (processTag g env i cid db t).2 =
        [DbOp.selectTag (g t.name), DbOp.insertLink cid r.id]) ∧
    ((∀ r ∈ db.tags, r.slug ≠ g t.name) →
      DbOp.insertTag (capitalize t.name) (g t.name) ∈
        (processTag g env i cid db t).2) := by
  constructor
  · intro r hr hs
    have hfilter : db.tags.filter (fun x => x.slug == g t.name) = [r] :=
      filter_slug_eq_single db.tags (g t.name) hnd r hr hs
    have hsingle : singleRow (db.tags.filter (fun x => x.slug == g t.name)) = some r := by
      rw [hfilter]; rfl
    unfold processTag linkStep
    by_cases h2 : env.linkFails i <;> simp [hid, hsingle, h2]
  · intro hnone
    have hfilter : db.tags.filter (fun x => x.slug == g t.name) = [] := by
      rw [List.filter_eq_nil_iff]
      intro x hx
      simp only [beq_iff_eq]
      exact hnone x hx
    have hsingle : singleRow (db.tags.filter (fun x => x.slug == g t.name)) = none := by
      rw [hfilter]; rfl
    unfold processTag linkStep
    rcases h4 : env.insertOutcome i with _ | _ | _ <;>
      by_cases h2 : env.linkFails i <;> simp [hid, hsingle, h4, h2]

/-- Witness for `processTag_reuses_existing_tag` at a concrete input with
an existing tag row. -/
theorem processTag_reuses_existing_tag_witness :
    (processTag (fun s => s) ⟨fun _ => InsertOutcome.created, fun _ => false⟩ 0 7
        ⟨[⟨3, "Ui", "ui"⟩], [], 4⟩ ⟨none, "ui", "ui"⟩).2 =
      [DbOp.selectTag "ui", DbOp.insertLink 7 3] := by
  exact ((processTag_reuses_existing_tag (fun s => s)
    ⟨fun _ => InsertOutcome.created, fun _ => false⟩ 0 7
    ⟨[⟨3, "Ui", "ui"⟩], [], 4⟩ ⟨none, "ui", "ui"⟩ (by decide) (by decide)).1
    ⟨3, "Ui", "ui"⟩ (by decide) rfl).2.2

/-! ### Model of the read queries (dbQueries.ts lines 18-122, 334-361)

A Supabase select is modelled as a list of filters applied to the rows of
an explicit database.  The embedded-resource filter on `user.username`
and the `!inner` joins on `component_tags`/`tags` are modelled as row
predicates over the joined tables, matching the evident intent of the
query builder calls. -/

/-- A row of the `users` table. -/
structure UserRow where
  id : String
  username : String
deriving DecidableEq

/-- A row of the `components` table (the columns these claims are about). -/
structure ComponentRow where
  id : Nat
  component_slug : String
  user_id : String
  is_public : Bool
deriving DecidableEq

/-- The tables read by the queries.  `componentTags` holds the joined
`component_tags -> tags` pairs (component id, tag slug). -/
structure QueryDb where
  components : List ComponentRow
  users : List UserRow
  componentTags : List (Nat × String)
deriving DecidableEq

/-- A filter the query builder chains with `.eq(...)` or an `!inner` join. -/
inductive ComponentFilter where
  | eqComponentSlug (s : String)
  | eqUserUsername (u : String)
  | eqUserId (u : String)
  | eqIsPublic (b : Bool)
  | innerJoinComponentTags
  | eqComponentTagSlug (s : String)
deriving DecidableEq

/-- Whether a component row passes one filter. -/
def rowMatches (db : QueryDb) (f : ComponentFilter) (c : ComponentRow) : Bool :=
  match f with
  | ComponentFilter.eqComponentSlug s => c.component_slug == s
  | ComponentFilter.eqUserUsername un =>
      db.users.any (fun u => u.id == c.user_id && u.username == un)
  | ComponentFilter.eqUserId uid => c.user_id == uid
  | ComponentFilter.eqIsPublic b => c.is_public == b
  | ComponentFilter.innerJoinComponentTags =>
      db.componentTags.any (fun p => p.1 == c.id)
  | ComponentFilter.eqComponentTagSlug s =>
      db.componentTags.any (fun p => p.1 == c.id && p.2 == s)

/-- Run a filter chain against the `components` table. -/
def runFilters (db : QueryDb) (filters : List ComponentFilter) :
    List ComponentRow :=
  db.components.filter (fun c => filters.all (fun f => rowMatches db f c))

/-- The filter chain of `getComponent` (dbQueries.ts lines 23-35). -/
def getComponentFilters (username slug : String) : List ComponentFilter :=
  [ComponentFilter.eqComponentSlug slug,
   ComponentFilter.eqUserUsername username,
   ComponentFilter.eqIsPublic true]

/-- Model of `getComponent` (dbQueries.ts lines 18-47): the filter chain followed by
`.single()`; on a backend error the data is null. -/
def getComponent (db : QueryDb) (username slug : String)
    (queryFails : Bool) : Option ComponentRow :=
  if queryFails then none
  else singleRow (runFilters db (getComponentFilters username slug))

/-- The filter chain of `getUserComponents` (dbQueries.ts lines 76-81). -/
def getUserComponentsFilters (userId : String) : List ComponentFilter :=
  [ComponentFilter.eqUserId userId, ComponentFilter.eqIsPublic true]

/-- Model of `getUserComponents` (dbQueries.ts lines 72-89): returns null on error. -/
def getUserComponents (db : QueryDb) (userId : String)
    (queryFails : Bool) : Option (List ComponentRow) :=
  if queryFails then none
  else some (runFilters db (getUserComponentsFilters userId))

/-- The filter chain of `getComponents` (dbQueries.ts lines 95-112): the
`!inner` join on component_tags/tags, the is_public filter, and the
optional tag-slug filter. -/
def getComponentsFilters (tagSlug : Option String) : List ComponentFilter :=
  [ComponentFilter.innerJoinComponentTags, ComponentFilter.eqIsPublic true] ++
    (match tagSlug with
     | some s => [ComponentFilter.eqComponentTagSlug s]
     | none => [])

/-- Model of `getComponents` (dbQueries.ts lines 91-122): filters, `.limit(1000)`,
and `throw new Error(error.message)` on a backend error. -/
def getComponents (db : QueryDb) (tagSlug : Option String)
    (queryError : Option String) : Except String (List ComponentRow) :=
  match queryError with
  | some msg => Except.error msg
  | none => Except.ok ((runFilters db (getComponentsFilters tagSlug)).take 1000)

/-- A row returned by a filter chain satisfies every filter of the chain. -/
theorem mem_runFilters_public (db : QueryDb) (fs : List ComponentFilter)
    (c : ComponentRow) (hc : c ∈ runFilters db fs)
    (hf : ComponentFilter.eqIsPublic true ∈ fs) : c.is_public = true := by
  unfold runFilters at hc
  have hall := List.of_mem_filter hc
  have := List.all_eq_true.mp hall _ hf
  simpa [rowMatches] using this

/-- Any row `.single()` returns belongs to the underlying row list. -/
theorem singleRow_mem {α : Type} (l : List α) (r : α)
    (h : singleRow l = some r) : r ∈ l := by
  unfold singleRow at h
  match l, h with
  | [x], h => simp at h; simp [h]

/-- C8: every component returned by `getComponent`, `getUserComponents`
and `getComponents` is public: each filter chain contains the
`is_public = true` filter, and every returned row satisfies it. -/
theorem read_queries_only_public (db : QueryDb) (username slug userId : String)
    (tagSlug : Option String) (qf1 qf2 : Bool) (qe : Option String) :
    (ComponentFilter.eqIsPublic true ∈ getComponentFilters username slug) ∧
    (ComponentFilter.eqIsPublic true ∈ getUserComponentsFilters userId) ∧
    (ComponentFilter.eqIsPublic true ∈ getComponentsFilters tagSlug) ∧
    (∀ c, getComponent db username slug qf1 = some c → c.is_public = true) ∧
    (∀ l, getUserComponents db userId qf2 = some l →
      ∀ c ∈ l, c.is_public = true) ∧
    (∀ l, getComponents db tagSlug qe = Except.ok l →
      ∀ c ∈ l, c.is_public = true) := by
  refine ⟨by simp [getComponentFilters], by simp [getUserComponentsFilters],
    ?_, ?_, ?_, ?_⟩
  · rcases tagSlug with _ | s <;> simp [getComponentsFilters]
  · intro c hc
    unfold getComponent at hc
    rcases qf1 with _ | _
    · simp at hc
      exact mem_runFilters_public db _ c
        (singleRow_mem _ c hc) (by simp [getComponentFilters])
    · simp at hc
  · intro l hl c hc
    unfold getUserComponents at hl
    rcases qf2 with _ | _
    · simp at hl
      subst hl
      exact mem_runFilters_public db _ c hc (by simp [getUserComponentsFilters])
    · simp at hl
  · intro l hl c hc
    unfold getComponents at hl
    rcases qe with _ | msg
    · simp at hl
      subst hl
      refine mem_runFilters_public db _ c (List.take_subset 1000 _ hc) ?_
      rcases tagSlug with _ | s <;> simp [getComponentsFilters]
    · simp at hl

/-- Witness for `read_queries_only_public` at a concrete database holding
one public and one private component. -/
theorem read_queries_only_public_witness :
    getComponent ⟨[⟨1, "button", "u1", true⟩, ⟨2, "modal", "u1", false⟩],
        [⟨"u1", "bob"⟩], []⟩ "bob" "button" false = some ⟨1, "button", "u1", true⟩ ∧
    (⟨1, "button", "u1", true⟩ : ComponentRow).is_public = true := by
  refine ⟨by decide, ?_⟩
  exact (read_queries_only_public
    ⟨[⟨1, "button", "u1", true⟩, ⟨2, "modal", "u1", false⟩], [⟨"u1", "bob"⟩], []⟩
    "bob" "button" "u1" none false false none).2.2.2.1
    ⟨1, "button", "u1", true⟩ (by decide)

/-! ### Model of `fetchDependencyComponents` (dbQueries.ts lines 334-361) -/

/-- Outcome of fetching one dependency slug: the `.single()` query returns
a component, errors (handled by `if (error) return null`), or throws
(handled by `catch { return null }`). -/
inductive FetchOutcome (α : Type) where
  | fetched (c : α)
  | errored
  | thrown
deriving DecidableEq

/-- Model of `fetchDependencyComponents` (dbQueries.ts lines 334-361): map every
slug to its fetched component or null, then drop the nulls. -/
def fetchDependencyComponents {α : Type} (fetch : String → FetchOutcome α)
    (dependencySlugs : List String) : List α :=
  let components := dependencySlugs.map (fun slug =>
    match fetch slug with
    | FetchOutcome.fetched c => some c
    | FetchOutcome.errored => none
    | FetchOutcome.thrown => none)
  components.filterMap id

/-- C10: `fetchDependencyComponents` returns exactly the components of the
slugs whose fetch succeeded, in input order; failed slugs contribute
nothing, the result has no null entries, and it is at most as long as the
input. -/
theorem fetchDependencyComponents_spec {α : Type}
    (fetch : String → FetchOutcome α) (slugs : List String) :
    fetchDependencyComponents fetch slugs =
      slugs.filterMap (fun s =>
        match fetch s with
        | FetchOutcome.fetched c => some c
        | _ => none) ∧
    (fetchDependencyComponents fetch slugs).length ≤ slugs.length ∧
    (∀ c ∈ fetchDependencyComponents fetch slugs,
      ∃ s ∈ slugs, fetch s = FetchOutcome.fetched c) := by
  have heq : fetchDependencyComponents fetch slugs =
      slugs.filterMap (fun s =>
        match fetch s with
        | FetchOutcome.fetched c => some c
        | _ => none) := by
    unfold fetchDependencyComponents
    rw [List.filterMap_map]
    congr 1
    funext s
    rcases h : fetch s with c | _ | _ <;> simp [h, Function.comp]
  refine ⟨heq, ?_, ?_⟩
  · rw [heq]
    exact List.length_filterMap_le _ _
  · intro c hc
    rw [heq] at hc
    obtain ⟨s, hs, hfs⟩ := List.mem_filterMap.mp hc
    refine ⟨s, hs, ?_⟩
    rcases h : fetch s with c0 | _ | _ <;> rw [h] at hfs <;> simp at hfs
    rw [hfs]

/-- Witness for `fetchDependencyComponents_spec` at a concrete fetch
function failing on one of three slugs. -/
theorem fetchDependencyComponents_spec_witness :
    fetchDependencyComponents
      (fun s => if s = "b" then FetchOutcome.errored else FetchOutcome.fetched s)
      ["a", "b", "c"] = ["a", "c"] ∧
    (fetchDependencyComponents
      (fun s => if s = "b" then FetchOutcome.errored else FetchOutcome.fetched s)
      ["a", "b", "c"]).length ≤ 3 := by
  have h := fetchDependencyComponents_spec
    (fun s => if s = "b" then FetchOutcome.errored else FetchOutcome.fetched s)
    ["a", "b", "c"]
  refine ⟨?_, h.2.1⟩
  rw [h.1]
  decide

/-! ### Model of the dependency-update effect (ComponentForm.tsx lines 121-148)

The parsers module is external; its functions are modelled as inputs that
either return a value or throw (`Except JsError`). -/

/-- The `componentDependencies` state of the form. -/
structure DepState where
  dependencies : List (String × String)
  demoDependencies : List (String × String)
  internalDependencies : List (String × String)
  componentNames : List String
  demoComponentName : String
deriving DecidableEq

/-- The external parser functions, each of which may throw. -/
structure ExtractEnv where
  extractComponentNames : String → Except JsError (List String)
  extractDependencies : String → Except JsError (List (String × String))
  extractDemoComponentName : String → Except JsError String
  findInternalDependencies : List (String × String) → List (String × String) →
    Except JsError (List (String × String))

/-- The try-block of `updateDependencies` (ComponentForm.tsx lines 123-141),
calling the parsers in source order. -/
def updateDependenciesRun (env : ExtractEnv) (code demoCode : String) :
    Except JsError DepState :=
  match env.extractComponentNames code with
  | Except.error e => Except.error e
  | Except.ok componentNames =>
    match env.extractDependencies code with
    | Except.error e => Except.error e
    | Except.ok dependencies =>
      match env.extractDependencies demoCode with
      | Except.error e => Except.error e
      | Except.ok demoDependencies =>
        match env.extractDemoComponentName demoCode with
        | Except.error e => Except.error e
        | Except.ok demoComponentName =>
          match env.findInternalDependencies dependencies demoDependencies with
          | Except.error e => Except.error e
          | Except.ok internalDependencies =>
            Except.ok ⟨dependencies, demoDependencies, internalDependencies,
                       componentNames, demoComponentName⟩

/-- Model of `updateDependencies` (ComponentForm.tsx lines 121-148): on success the
state is replaced by the parsed values; the catch-block only logs, so on
any parser throw the previous state is kept. -/
def updateDependencies (env : ExtractEnv) (code demoCode : String)
    (prev : DepState) : DepState :=
  match updateDependenciesRun env code demoCode with
  | Except.ok s => s
  | Except.error _ => prev

/-- C7: the dependency state is recomputed from the parsers exactly as the
source wires them, and any parser throw (at the argument the source passes
it) leaves the previous state unchanged. -/
theorem updateDependencies_spec (env : ExtractEnv) (code demoCode : String)
    (prev : DepState) :
    (∀ ns d dd dn internal,
      env.extractComponentNames code = Except.ok ns →
      env.extractDependencies code = Except.ok d →
      env.extractDependencies demoCode = Except.ok dd →
      env.extractDemoComponentName demoCode = Except.ok dn →
      env.findInternalDependencies d dd = Except.ok internal →
      updateDependencies env code demoCode prev = ⟨d, dd, internal, ns, dn⟩) ∧
    (∀ e, env.extractComponentNames code = Except.error e →
      updateDependencies env code demoCode prev = prev) ∧
    (∀ e, env.extractDependencies code = Except.error e →
      updateDependencies env code demoCode prev = prev) ∧
    (∀ e, env.extractDependencies demoCode = Except.error e →
      updateDependencies env code demoCode prev = prev) ∧
    (∀ e, env.extractDemoComponentName demoCode = Except.error e →
      updateDependencies env code demoCode prev = prev) ∧
    (∀ d dd e, env.extractDependencies code = Except.ok d →
      env.extractDependencies demoCode = Except.ok dd →
      env.findInternalDependencies d dd = Except.error e →
      updateDependencies env code demoCode prev = prev) := by
  refine ⟨?_, ?_, ?_, ?_, ?_, ?_⟩
  · intro ns d dd dn internal h1 h2 h3 h4 h5
    unfold updateDependencies updateDependenciesRun
    simp [h1, h2, h3, h4, h5]
  · intro e h1
    unfold updateDependencies updateDependenciesRun
    simp [h1]
  · intro e h2
    unfold updateDependencies updateDependenciesRun
    rcases h1 : env.extractComponentNames code with e1 | ns <;> simp [h1, h2]
  · intro e h3
    unfold updateDependencies updateDependenciesRun
    rcases h1 : env.extractComponentNames code with e1 | ns <;>
      rcases h2 : env.extractDependencies code with e2 | d <;>
      simp [h1, h2, h3]
  · intro e h4
    unfold updateDependencies updateDependenciesRun
    rcases h1 : env.extractComponentNames code with e1 | ns <;>
      rcases h2 : env.extractDependencies code with e2 | d <;>
      rcases h3 : env.extractDependencies demoCode with e3 | dd <;>
      simp [h1, h2, h3, h4]
  · intro d dd e h2 h3 h5
    unfold updateDependencies updateDependenciesRun
    rcases h1 : env.extractComponentNames code with e1 | ns <;>
      rcases h4 : env.extractDemoComponentName demoCode with e4 | dn <;>
      simp [h1, h2, h3, h4, h5]

/-- Witness for `updateDependencies_spec` at concrete parsers where
`findInternalDependencies` throws. -/
theorem updateDependencies_spec_witness :
    updateDependencies
      ⟨fun _ => Except.ok ["Button"], fun _ => Except.ok [],
       fun _ => Except.ok "Demo",
       fun _ _ => Except.error (JsError.jsError "parse failure")⟩
      "code" "demo" ⟨[], [], [], ["Old"], "OldDemo"⟩ =
      ⟨[], [], [], ["Old"], "OldDemo"⟩ := by
  exact (updateDependencies_spec
    ⟨fun _ => Except.ok ["Button"], fun _ => Except.ok [],
     fun _ => Except.ok "Demo",
     fun _ _ => Except.error (JsError.jsError "parse failure")⟩
    "code" "demo" ⟨[], [], [], ["Old"], "OldDemo"⟩).2.2.2.2.2
    [] [] (JsError.jsError "parse failure") rfl rfl rfl

/-! ### Model of the demo-code and preview effects
(ComponentForm.tsx lines 249-266, 274-279, 283-297) -/

/-- Result of `removeComponentImports`: the demo code with the component's
own imports stripped, and the list of import statements that were
removed. -/
structure RemoveImportsResult where
  modifiedCode : String
  removedImports : List String
deriving DecidableEq

/-- The external helpers used by these two effects: `removeComponentImports`
and `extractDemoComponentName` from the parsers module, and
`prepareFilesForPreview` from the form utils.  The preview preparation
returns the sandbox files and dependencies, each a keyed record. -/
structure ParserEnv where
  removeComponentImports : String → List String → RemoveImportsResult
  extractDemoComponentName : String → String
  prepareFilesForPreview : String → String →
    (List (String × String)) × (List (String × String))

/-- The pieces of component state these effects read and write. -/
structure DemoFormState where
  code : String
  demo_code : String
  parsedComponentNames : Option (List String)
  importsToRemove : Option (List String)
  showComponentDetails : Bool
  internalDependencies : List (String × String)
deriving DecidableEq

/-- The effect watching `demo_code` (ComponentForm.tsx lines 283-297):
strip the component's own imports from the demo code, record which
imports were removed, and (when the stripped demo still has a demo
component) store the stripped code back into the form. -/
def demoCodeEffect (env : ParserEnv) (st : DemoFormState) : DemoFormState :=
  match st.parsedComponentNames with
  | none => st
  | some names =>
    let r := env.removeComponentImports st.demo_code names
    let st1 := { st with importsToRemove := some r.removedImports }
    let demoComponentName := env.extractDemoComponentName r.modifiedCode
    if demoComponentName ≠ "" then
      { st1 with showComponentDetails := true, demo_code := r.modifiedCode }
    else st1

/-- The effect computing `previewProps` (ComponentForm.tsx lines 249-266):
`prepareFilesForPreview` runs only when code and demo code are non-empty,
there are no internal dependencies, and `importsToRemove` is the empty
list (`importsToRemove?.length === 0`). -/
def previewEffect (env : ParserEnv) (st : DemoFormState) :
    Option ((List (String × String)) × (List (String × String))) :=
  if st.code ≠ "" ∧ st.demo_code ≠ "" ∧
     st.internalDependencies.length = 0 ∧ st.importsToRemove = some [] then
    some (env.prepareFilesForPreview st.code st.demo_code)
  else none

/-- C2: for every demo code and non-empty parsed component-name list, the
demo-code effect records exactly the imports `removeComponentImports`
strips, and `prepareFilesForPreview` runs only once that stripping has
left an empty list of imports still to remove. -/
theorem demo_preview_strips_imports_first (env : ParserEnv)
    (st : DemoFormState) (names : List String)
    (hnames : st.parsedComponentNames = some names) (_hne : names ≠ []) :
    ((demoCodeEffect env st).importsToRemove =
      some (env.removeComponentImports st.demo_code names).removedImports) ∧
    (∀ p, previewEffect env (demoCodeEffect env st) = some p →
      (demoCodeEffect env st).importsToRemove = some [] ∧
      (env.removeComponentImports st.demo_code names).removedImports = [] ∧
      p = env.prepareFilesForPreview (demoCodeEffect env st).code
            (demoCodeEffect env st).demo_code) := by
  have heff : (demoCodeEffect env st).importsToRemove =
      some (env.removeComponentImports st.demo_code names).removedImports := by
    unfold demoCodeEffect
    rw [hnames]
    by_cases h : env.extractDemoComponentName
        (env.removeComponentImports st.demo_code names).modifiedCode ≠ "" <;>
      simp [h]
  refine ⟨heff, ?_⟩
  intro p hp
  unfold previewEffect at hp
  split at hp
  · rename_i hcond
    obtain ⟨hc, hd, hi, hr⟩ := hcond
    refine ⟨hr, ?_, by simpa using hp.symm⟩
    rw [heff] at hr
    simpa using hr
  · simp at hp

/-- Witness for `demo_preview_strips_imports_first` at a concrete state in
which one import is stripped, so no preview is prepared. -/
theorem demo_preview_strips_imports_first_witness :
    (demoCodeEffect
        ⟨fun _ _ => ⟨"demo-stripped", ["Button-import"]⟩, fun _ => "Demo",
         fun c d => ([("App.tsx", c), ("Demo.tsx", d)], [])⟩
        ⟨"code", "demo", some ["Button"], none, false, []⟩).importsToRemove =
      some ["Button-import"] := by
  exact (demo_preview_strips_imports_first
    ⟨fun _ _ => ⟨"demo-stripped", ["Button-import"]⟩, fun _ => "Demo",
     fun c d => ([("App.tsx", c), ("Demo.tsx", d)], [])⟩
    ⟨"code", "demo", some ["Button"], none, false, []⟩
    ["Button"] rfl (by decide)).1

/-! ### Model of `onSubmit` (ComponentForm.tsx lines 156-230)

The storage helpers (`uploadToStorage`, `uploadPreviewImage`) and the
`addComponent` / `addTagsToComponent` data fetchers are external calls:
their results come from a `SubmitEnv`, and every call `onSubmit` issues
is recorded in an action list.  `JSON.stringify` on the string arrays and
records the form serializes is modelled by `jsonStringifyArr` /
`jsonStringifyRecord` below. -/

/-- JSON string escaping of one character, as `JSON.stringify` performs
it: quote, backslash, the short control escapes, and `\u00XX` for the
remaining control characters. -/
def escapeJsonChar (c : Char) : List Char :=
  if c = '"' then ['\\', '"']
  else if c = '\\' then ['\\', '\\']
  else if c = Char.ofNat 8 then ['\\', 'b']
  else if c = Char.ofNat 9 then ['\\', 't']
  else if c = Char.ofNat 10 then ['\\', 'n']
  else if c = Char.ofNat 12 then ['\\', 'f']
  else if c = Char.ofNat 13 then ['\\', 'r']
  else if c.toNat < 32 then
    ['\\', 'u', '0', '0', Nat.digitChar (c.toNat / 16), Nat.digitChar (c.toNat % 16)]
  else [c]

/-- A JSON string literal for `s`, as `JSON.stringify` encodes strings. -/
def jsonQuote (s : String) : String :=
  "\"" ++ String.mk (s.data.flatMap escapeJsonChar) ++ "\""

/-- The `JSON.stringify` encoding of an array of strings. -/
def jsonStringifyArr (xs : List String) : String :=
  "[" ++ String.intercalate "," (xs.map jsonQuote) ++ "]"

/-- The `JSON.stringify` encoding of a string-keyed record of strings, keys in
insertion order. -/
def jsonStringifyRecord (kvs : List (String × String)) : String :=
  "\x7b" ++
    String.intercalate "," (kvs.map (fun kv => jsonQuote kv.1 ++ ":" ++ jsonQuote kv.2)) ++
    "\x7d"

/-- The authenticated user as `useUser()` exposes it: `!user.id` is falsy
exactly when the id is the empty string. -/
structure UserT where
  id : String
  username : String
deriving DecidableEq

/-- The form values `onSubmit` receives (the fields it reads).
`preview_url` is the empty string when no cover image was chosen. -/
structure FormDataT where
  name : String
  component_slug : String
  code : String
  demo_code : String
  description : String
  preview_url : String
deriving DecidableEq

/-- The row `addComponent` hands back (`insertedData`). -/
structure InsertedRow where
  id : Nat
deriving DecidableEq

/-- The `componentData` record built at ComponentForm.tsx lines 198-212. -/
structure ComponentData where
  name : String
  component_name : String
  demo_component_name : String
  component_slug : String
  code : String
  demo_code : String
  description : String
  install_url : String
  user_id : String
  dependencies : String
  demo_dependencies : String
  internal_dependencies : String
  preview_url : String
deriving DecidableEq

/-- An external call issued by `onSubmit`, in issue order. -/
inductive SubmitAction where
  | uploadFile (fileName content : String)
  | uploadPreviewImage (fileUrl slug : String)
  | insertComponent (d : ComponentData)
  | addTagsCall (componentId : Nat) (tags : List FTag)
deriving DecidableEq

/-- A console log line of `onSubmit`: `console.log`, `console.error` with
a message, or `console.error` with a message and a caught error. -/
inductive LogEntry where
  | log (msg : String)
  | errorLog (msg : String)
  | errorWith (msg : String) (e : JsError)
deriving DecidableEq

/-- Results of the external calls of one submission. -/
structure SubmitEnv where
  uploadCodeResult : Except JsError String
  uploadDemoResult : Except JsError String
  uploadPreviewResult : Except JsError String
  insertResult : Except JsError (Option InsertedRow)
  addTagsResult : Except JsError Unit

/-- Component state `onSubmit` closes over: the parsed dependency state,
the form's tags (`validTags`; as a JavaScript array it is always truthy),
and the `demo_code` value read at render time (`cleanedDemoCode`). -/
structure ClosureState where
  parsedDependencies : List (String × String)
  parsedDemoDependencies : List (String × String)
  internalDependencies : List (String × String)
  parsedComponentNames : List String
  parsedDemoComponentName : String
  validTags : List FTag
  demoCode : String
deriving DecidableEq

/-- Everything observable about one `onSubmit` run: console output,
`alert` calls, external calls issued, and the final values of the
`isLoading` and success-dialog flags. -/
structure SubmitResult where
  logs : List LogEntry
  alerts : List String
  actions : List SubmitAction
  isLoading : Bool
  successDialogOpen : Bool
deriving DecidableEq

/-- The alert message of the catch-block (ComponentForm.tsx lines
222-226): the base message, extended with the error's message when the
caught value is an `Error`. -/
def errMsg (e : JsError) : String :=
  match e with
  | JsError.jsError m => "An error occurred while adding the component: " ++ m
  | JsError.jsOther => "An error occurred while adding the component"

/-- The result of a run that reaches the catch-block: log the error,
alert, and reset `isLoading` in the finally-block. -/
def submitFailResult (logs0 : List LogEntry) (acts : List SubmitAction)
    (e : JsError) : SubmitResult :=
  { logs := logs0 ++ [LogEntry.errorWith "Error adding component:" e]
  , alerts := [errMsg e]
  , actions := acts
  , isLoading := false
  , successDialogOpen := false }

/-- The try-block of `onSubmit` (ComponentForm.tsx lines 172-229) for an
authenticated user past the internal-dependency guard. -/
def onSubmitTry (apiUrl : String) (u : UserT) (cls : ClosureState)
    (env : SubmitEnv) (data : FormDataT) : SubmitResult :=
  let logs0 : List LogEntry := [LogEntry.log "onSubmit called with data:"]
  let codeFileName := data.component_slug ++ "-code.tsx"
  let demoCodeFileName := data.component_slug ++ "-demo.tsx"
  let cleanedDemoCode := cls.demoCode
  let acts1 := [SubmitAction.uploadFile codeFileName data.code,
                SubmitAction.uploadFile demoCodeFileName cleanedDemoCode]
  match env.uploadCodeResult, env.uploadDemoResult with
  | Except.error e, _ => submitFailResult logs0 acts1 e
  | Except.ok _, Except.error e => submitFailResult logs0 acts1 e
  | Except.ok codeUrl, Except.ok demoCodeUrl =>
    let installUrl := apiUrl ++ "/api/r/" ++ data.component_slug
    let acts2 := acts1 ++
      (if data.preview_url ≠ "" then
        [SubmitAction.uploadPreviewImage data.preview_url data.component_slug]
       else [])
    match (if data.preview_url ≠ "" then env.uploadPreviewResult
           else Except.ok "") with
    | Except.error e => submitFailResult logs0 acts2 e
    | Except.ok previewImageUrl =>
      let componentData : ComponentData :=
        { name := data.name
        , component_name := jsonStringifyArr cls.parsedComponentNames
        , demo_component_name := cls.parsedDemoComponentName
        , component_slug := data.component_slug
        , code := codeUrl
        , demo_code := demoCodeUrl
        , description := data.description
        , install_url := installUrl
        , user_id := u.id
        , dependencies := jsonStringifyRecord cls.parsedDependencies
        , demo_dependencies := jsonStringifyRecord cls.parsedDemoDependencies
        , internal_dependencies := jsonStringifyRecord cls.internalDependencies
        , preview_url := previewImageUrl }
      let acts3 := acts2 ++ [SubmitAction.insertComponent componentData]
      match env.insertResult with
      | Except.error e => submitFailResult logs0 acts3 e
      | Except.ok none =>
          { logs := logs0, alerts := [], actions := acts3
          , isLoading := false, successDialogOpen := false }
      | Except.ok (some insertedData) =>
        let acts4 := acts3 ++
          [SubmitAction.addTagsCall insertedData.id
            (cls.validTags.filter (fun t => t.slug != ""))]
        match env.addTagsResult with
        | Except.error e => submitFailResult logs0 acts4 e
        | Except.ok _ =>
            { logs := logs0, alerts := [], actions := acts4
            , isLoading := false, successDialogOpen := true }

/-- Model of `onSubmit` (ComponentForm.tsx lines 156-230): the authentication
guard, the internal-dependency guard, then the try-block. -/
def onSubmit (apiUrl : String) (user : Option UserT) (cls : ClosureState)
    (env : SubmitEnv) (data : FormDataT) : SubmitResult :=
  match user with
  | none =>
      { logs := [LogEntry.errorLog "User is not authenticated"]
      , alerts := ["You must be logged in to add a component."]
      , actions := [], isLoading := false, successDialogOpen := false }
  | some u =>
    if u.id = "" then
      { logs := [LogEntry.errorLog "User is not authenticated"]
      , alerts := ["You must be logged in to add a component."]
      , actions := [], isLoading := false, successDialogOpen := false }
    else if cls.internalDependencies.any (fun kv => kv.2 == "") then
      { logs := [LogEntry.log "onSubmit called with data:",
                 LogEntry.errorLog "Internal dependencies not specified"]
      , alerts := ["Please specify the slug for all internal dependencies"]
      , actions := [], isLoading := false, successDialogOpen := false }
    else onSubmitTry apiUrl u cls env data

/-- Guard `!user || !user.id`: whether the authentication guard fires. -/
def userFalsy (user : Option UserT) : Bool :=
  match user with
  | none => true
  | some u => u.id == ""

/-- The error, if any, that the try-block of a submission propagates to
the catch-block, following the source's sequencing: the parallel uploads,
the conditional preview upload, the insert, then the tag association. -/
def submitFailure (env : SubmitEnv) (data : FormDataT) : Option JsError :=
  match env.uploadCodeResult, env.uploadDemoResult with
  | Except.error e, _ => some e
  | Except.ok _, Except.error e => some e
  | Except.ok _, Except.ok _ =>
    match (if data.preview_url ≠ "" then env.uploadPreviewResult
           else Except.ok "") with
    | Except.error e => some e
    | Except.ok _ =>
      match env.insertResult with
      | Except.error e => some e
      | Except.ok none => none
      | Except.ok (some _) =>
        match env.addTagsResult with
        | Except.error e => some e
        | Except.ok _ => none

/-- The catch-block message never coincides with the internal-dependency
guard's alert. -/
theorem errMsg_ne_guard (e : JsError) :
    errMsg e ≠ "Please specify the slug for all internal dependencies" := by
  rcases e with m | _
  · intro h
    simp only [errMsg] at h
    have hd : ("An error occurred while adding the component: " ++ m).data =
        ("Please specify the slug for all internal dependencies" : String).data :=
      congrArg String.data h
    rw [String.data_append] at hd
    have hh := congrArg List.head? hd
    simp at hh
  · intro h
    simp only [errMsg] at h
    exact absurd h (by decide)

/-- Every alert the try-block raises is a catch-block alert. -/
theorem onSubmitTry_alerts_shape (apiUrl : String) (u : UserT)
    (cls : ClosureState) (env : SubmitEnv) (data : FormDataT) :
    ∀ s ∈ (onSubmitTry apiUrl u cls env data).alerts, ∃ e, s = errMsg e := by
  intro s hs
  unfold onSubmitTry at hs
  rcases hc : env.uploadCodeResult with e1 | cu <;>
    rcases hd : env.uploadDemoResult with e2 | du <;>
    rcases hp : (if data.preview_url ≠ "" then env.uploadPreviewResult
                 else Except.ok "") with e3 | pu <;>
    rcases hi : env.insertResult with e4 | _ | row <;>
    rcases ht : env.addTagsResult with e5 | _ <;>
    simp [hc, hd, hp, hi, ht, submitFailResult] at hs <;>
    exact ⟨_, hs⟩

/-- C4: with no authenticated user (absent or without an id), `onSubmit`
logs and alerts, issues no external call, and leaves every flag
untouched. -/
theorem onSubmit_requires_auth (apiUrl : String) (user : Option UserT)
    (cls : ClosureState) (env : SubmitEnv) (data : FormDataT)
    (h : userFalsy user = true) :
    onSubmit apiUrl user cls env data =
      { logs := [LogEntry.errorLog "User is not authenticated"]
      , alerts := ["You must be logged in to add a component."]
      , actions := [], isLoading := false, successDialogOpen := false } := by
  rcases user with _ | u
  · rfl
  · simp only [userFalsy, beq_iff_eq] at h
    simp [onSubmit, h]

/-- Witness for `onSubmit_requires_auth` with no user at all. -/
theorem onSubmit_requires_auth_witness :
    onSubmit "https://api" none
      ⟨[], [], [], [], "", [], ""⟩
      ⟨Except.ok "u1", Except.ok "u2", Except.ok "u3",
       Except.ok (some ⟨1⟩), Except.ok ()⟩
      ⟨"Button", "button", "c", "d", "", ""⟩ =
      { logs := [LogEntry.errorLog "User is not authenticated"]
      , alerts := ["You must be logged in to add a component."]
      , actions := [], isLoading := false, successDialogOpen := false } := by
  exact onSubmit_requires_auth "https://api" none
    ⟨[], [], [], [], "", [], ""⟩
    ⟨Except.ok "u1", Except.ok "u2", Except.ok "u3",
     Except.ok (some ⟨1⟩), Except.ok ()⟩
    ⟨"Button", "button", "c", "d", "", ""⟩ rfl

/-- C5: with an authenticated user, an internal dependency mapped to an
empty slug makes `onSubmit` abort with the slug alert and no external
call; when every internal dependency has a non-empty slug, that alert is
never raised. -/
theorem onSubmit_internal_deps_guard (apiUrl : String) (user : Option UserT)
    (cls : ClosureState) (env : SubmitEnv) (data : FormDataT)
    (h : userFalsy user = false) :
    ((∃ kv ∈ cls.internalDependencies, kv.2 = "") →
      (onSubmit apiUrl user cls env data).actions = [] ∧
      (onSubmit apiUrl user cls env data).alerts =
        ["Please specify the slug for all internal dependencies"]) ∧
    ((∀ kv ∈ cls.internalDependencies, kv.2 ≠ "") →
      "Please specify the slug for all internal dependencies" ∉
        (onSubmit apiUrl user cls env data).alerts) := by
  rcases user with _ | u
  · simp [userFalsy] at h
  · simp only [userFalsy] at h
    rw [beq_eq_false_iff_ne] at h
    constructor
    · rintro ⟨kv, hkv, hempty⟩
      have hany : cls.internalDependencies.any (fun kv => kv.2 == "") = true :=
        List.any_eq_true.mpr ⟨kv, hkv, by simp [hempty]⟩
      simp [onSubmit, h, hany]
    · intro hall
      have hany : cls.internalDependencies.any (fun kv => kv.2 == "") = false := by
        rw [List.any_eq_false]
        intro kv hkv
        simpa using hall kv hkv
      have hres : onSubmit apiUrl (some u) cls env data =
          onSubmitTry apiUrl u cls env data := by
        simp [onSubmit, h, hany]
      rw [hres]
      intro hmem
      obtain ⟨e, he⟩ := onSubmitTry_alerts_shape apiUrl u cls env data _ hmem
      exact errMsg_ne_guard e he.symm

/-- Witness for `onSubmit_internal_deps_guard` at a state with one
unspecified internal dependency. -/
theorem onSubmit_internal_deps_guard_witness :
    (onSubmit "https://api" (some ⟨"u1", "bob"⟩)
      ⟨[], [], [("@/components/ui/button", "")], [], "", [], ""⟩
      ⟨Except.ok "a", Except.ok "b", Except.ok "c",
       Except.ok (some ⟨1⟩), Except.ok ()⟩
      ⟨"Button", "button", "c", "d", "", ""⟩).actions = [] ∧
    (onSubmit "https://api" (some ⟨"u1", "bob"⟩)
      ⟨[], [], [("@/components/ui/button", "")], [], "", [], ""⟩
      ⟨Except.ok "a", Except.ok "b", Except.ok "c",
       Except.ok (some ⟨1⟩), Except.ok ()⟩
      ⟨"Button", "button", "c", "d", "", ""⟩).alerts =
      ["Please specify the slug for all internal dependencies"] := by
  exact (onSubmit_internal_deps_guard "https://api" (some ⟨"u1", "bob"⟩)
    ⟨[], [], [("@/components/ui/button", "")], [], "", [], ""⟩
    ⟨Except.ok "a", Except.ok "b", Except.ok "c",
     Except.ok (some ⟨1⟩), Except.ok ()⟩
    ⟨"Button", "button", "c", "d", "", ""⟩ rfl).1
    ⟨("@/components/ui/button", ""), by decide, rfl⟩

/-- C3: any error the try-block propagates is logged, surfaced as a
single alert (whose message includes the error's own message when the
thrown value is an `Error`), the loading flag ends false, and the success
dialog is not opened. -/
theorem onSubmit_error_handling (apiUrl : String) (user : Option UserT)
    (cls : ClosureState) (env : SubmitEnv) (data : FormDataT) (e : JsError)
    (husr : userFalsy user = false)
    (hguard : cls.internalDependencies.any (fun kv => kv.2 == "") = false)
    (hfail : submitFailure env data = some e) :
    (onSubmit apiUrl user cls env data).logs =
      [LogEntry.log "onSubmit called with data:",
       LogEntry.errorWith "Error adding component:" e] ∧
    (onSubmit apiUrl user cls env data).alerts = [errMsg e] ∧
    (∀ m, e = JsError.jsError m →
      (onSubmit apiUrl user cls env data).alerts =
        ["An error occurred while adding the component: " ++ m]) ∧
    (onSubmit apiUrl user cls env data).isLoading = false ∧
    (onSubmit apiUrl user cls env data).successDialogOpen = false := by
  rcases user with _ | u
  · simp [userFalsy] at husr
  · simp only [userFalsy] at husr
    rw [beq_eq_false_iff_ne] at husr
    have hres : onSubmit apiUrl (some u) cls env data =
        onSubmitTry apiUrl u cls env data := by
      simp [onSubmit, husr, hguard]
    rw [hres]
    unfold submitFailure at hfail
    unfold onSubmitTry
    rcases hc : env.uploadCodeResult with e1 | cu <;>
      rcases hd : env.uploadDemoResult with e2 | du <;>
      rcases hp : (if data.preview_url ≠ "" then env.uploadPreviewResult
                   else Except.ok "") with e3 | pu <;>
      rcases hi : env.insertResult with e4 | _ | row <;>
      rcases ht : env.addTagsResult with e5 | _ <;>
      simp [hc, hd, hp, hi, ht] at hfail <;>
      subst hfail <;>
      simp [submitFailResult, errMsg] <;>
      (intro m hm; subst hm; rfl)

/-- Witness for `onSubmit_error_handling` with a failing code upload. -/
theorem onSubmit_error_handling_witness :
    (onSubmit "https://api" (some ⟨"u1", "bob"⟩)
      ⟨[], [], [], ["Button"], "Demo", [], "demo"⟩
      ⟨Except.error (JsError.jsError "upload failed"), Except.ok "b",
       Except.ok "c", Except.ok (some ⟨1⟩), Except.ok ()⟩
      ⟨"Button", "button", "c", "d", "", ""⟩).alerts =
      ["An error occurred while adding the component: upload failed"] ∧
    (onSubmit "https://api" (some ⟨"u1", "bob"⟩)
      ⟨[], [], [], ["Button"], "Demo", [], "demo"⟩
      ⟨Except.error (JsError.jsError "upload failed"), Except.ok "b",
       Except.ok "c", Except.ok (some ⟨1⟩), Except.ok ()⟩
      ⟨"Button", "button", "c", "d", "", ""⟩).isLoading = false := by
  have h := onSubmit_error_handling "https://api" (some ⟨"u1", "bob"⟩)
    ⟨[], [], [], ["Button"], "Demo", [], "demo"⟩
    ⟨Except.error (JsError.jsError "upload failed"), Except.ok "b",
     Except.ok "c", Except.ok (some ⟨1⟩), Except.ok ()⟩
    ⟨"Button", "button", "c", "d", "", ""⟩
    (JsError.jsError "upload failed") rfl rfl rfl
  exact ⟨h.2.2.1 "upload failed" rfl, h.2.2.2.1⟩

/-- C6: on a successful submission with slug `s`, the code and demo are
uploaded as `s ++ "-code.tsx"` and `s ++ "-demo.tsx"`, and the inserted
record has `install_url = apiUrl ++ "/api/r/" ++ s`, the four
`JSON.stringify` serializations, and the submitting user's id. -/
theorem onSubmit_success_record (apiUrl : String) (u : UserT)
    (cls : ClosureState) (env : SubmitEnv) (data : FormDataT)
    (cu du pu : String) (row : InsertedRow)
    (hid : u.id ≠ "")
    (hguard : cls.internalDependencies.any (fun kv => kv.2 == "") = false)
    (hc : env.uploadCodeResult = Except.ok cu)
    (hd : env.uploadDemoResult = Except.ok du)
    (hp : (data.preview_url = "" ∧ pu = "") ∨
          (data.preview_url ≠ "" ∧ env.uploadPreviewResult = Except.ok pu))
    (hi : env.insertResult = Except.ok (some row))
    (ht : env.addTagsResult = Except.ok ()) :
    SubmitAction.uploadFile (data.component_slug ++ "-code.tsx") data.code ∈
      (onSubmit apiUrl (some u) cls env data).actions ∧
    SubmitAction.uploadFile (data.component_slug ++ "-demo.tsx") cls.demoCode ∈
      (onSubmit apiUrl (some u) cls env data).actions ∧
    SubmitAction.insertComponent
      { name := data.name
      , component_name := jsonStringifyArr cls.parsedComponentNames
      , demo_component_name := cls.parsedDemoComponentName
      , component_slug := data.component_slug
      , code := cu
      , demo_code := du
      , description := data.description
      , install_url := apiUrl ++ "/api/r/" ++ data.component_slug
      , user_id := u.id
      , dependencies := jsonStringifyRecord cls.parsedDependencies
      , demo_dependencies := jsonStringifyRecord cls.parsedDemoDependencies
      , internal_dependencies := jsonStringifyRecord cls.internalDependencies
      , preview_url := pu } ∈
      (onSubmit apiUrl (some u) cls env data).actions := by
  have hres : onSubmit apiUrl (some u) cls env data =
      onSubmitTry apiUrl u cls env data := by
    simp [onSubmit, hid, hguard]
  rw [hres]
  unfold onSubmitTry
  rcases hp with ⟨hpu, hpv⟩ | ⟨hpu, hpr⟩
  · subst hpv
    simp [hc, hd, hi, ht, hpu]
  · simp [hc, hd, hi, ht, hpu, hpr]

/-- Witness for `onSubmit_success_record` at a fully succeeding
environment. -/
theorem onSubmit_success_record_witness :
    SubmitAction.insertComponent
      { name := "Button"
      , component_name := jsonStringifyArr ["Button"]
      , demo_component_name := "Demo"
      , component_slug := "button"
      , code := "https://s/button-code.tsx"
      , demo_code := "https://s/button-demo.tsx"
      , description := "desc"
      , install_url := "https://api" ++ "/api/r/" ++ "button"
      , user_id := "u1"
      , dependencies := jsonStringifyRecord [("react", "latest")]
      , demo_dependencies := jsonStringifyRecord []
      , internal_dependencies := jsonStringifyRecord []
      , preview_url := "" } ∈
      (onSubmit "https://api" (some ⟨"u1", "bob"⟩)
        ⟨[("react", "latest")], [], [], ["Button"], "Demo", [], "demo"⟩
        ⟨Except.ok "https://s/button-code.tsx",
         Except.ok "https://s/button-demo.tsx", Except.ok "",
         Except.ok (some ⟨1⟩), Except.ok ()⟩
        ⟨"Button", "button", "code", "demo", "desc", ""⟩).actions := by
  exact (onSubmit_success_record "https://api" ⟨"u1", "bob"⟩
    ⟨[("react", "latest")], [], [], ["Button"], "Demo", [], "demo"⟩
    ⟨Except.ok "https://s/button-code.tsx",
     Except.ok "https://s/button-demo.tsx", Except.ok "",
     Except.ok (some ⟨1⟩), Except.ok ()⟩
    ⟨"Button", "button", "code", "demo", "desc", ""⟩
    "https://s/button-code.tsx" "https://s/button-demo.tsx" "" ⟨1⟩
    (by decide) rfl rfl rfl (Or.inl ⟨rfl, rfl⟩) rfl rfl).2.2

end TwentyFirst
